import Mathlib

/-!
Verification of the Bikroy price-intelligence scraper core.

Shallow embedding of the scraper pipeline:
  - `src/scraper/config.py`   : constants, translation tables, label map
  - `src/scraper/scraper.py`  : field extraction, retry logic, link collection
  - `src/scraper/dbmanage.py` : insert-or-ignore persistence and URL filtering

HTML documents are modelled as a tree of element/text nodes; BeautifulSoup
queries (`find`, `find_all`, `find_next_sibling`, `get_text`) become pre-order
traversals over that tree.  Network effects are modelled by a fetch oracle
mapping attempt numbers to outcomes.  The record store is a list of rows
keyed by URL (SQLite `INSERT OR IGNORE` appends a row only when the key is
absent).
-/

namespace Bikroy

/-! ## Configuration (`config.py`) -/

def MAX_RETRIES : Nat := 3
def RETRY_WAIT_MIN : Nat := 60
def RETRY_WAIT_MAX : Nat := 120
def MAX_PAGES : Nat := 300
def BASE_URL : String := "https://bikroy.com"

/-- The CDN-avatar host pattern excluded from image URLs
(`"https://i.bikroy-st.com/u/" not in img['src']` in `extract_images`). -/
def AVATAR_HOST : String := "https://i.bikroy-st.com/u/"

/-- Table `FIELD_MAP` from `config.py`: label text → record field name. -/
def FIELD_MAP : List (String × String) :=
  [("কন্ডিশন:", "Condition"), ("মডেল:", "Model"), ("ব্র্যান্ড:", "Brand")]

/-- Table `MONTH_MAP` from `config.py` (note the trailing space in the Sep key,
exactly as in the source). -/
def MONTH_MAP : List (String × String) :=
  [("জানু", "Jan"), ("ফেব", "Feb"), ("মার্চ", "Mar"), ("এপ্রি", "Apr"),
   ("মে", "May"), ("জুন", "Jun"), ("জুলা", "Jul"), ("আগ", "Aug"),
   ("সেপ্ট ", "Sep"), ("অক্টো", "Oct"), ("নভে", "Nov"), ("ডিসে", "Dec")]

/-- The per-character translation built by
`str.maketrans("০১২৩৪৫৬৭৮৯", "0123456789")`: the image of a Bangla digit,
`none` on every other character. -/
def banglaDigit? (c : Char) : Option Char :=
  if c = '০' then some '0' else if c = '১' then some '1'
  else if c = '২' then some '2' else if c = '৩' then some '3'
  else if c = '৪' then some '4' else if c = '৫' then some '5'
  else if c = '৬' then some '6' else if c = '৭' then some '7'
  else if c = '৮' then some '8' else if c = '৯' then some '9'
  else none

/-- One step of `str.translate(BANGLA_TO_ENGLISH)`. -/
def transChar (c : Char) : Char := (banglaDigit? c).getD c

/-- Model of `text.translate(BANGLA_TO_ENGLISH)`: `str.translate` maps each code point
through the table, leaving unmapped code points unchanged. -/
def translateDigits (s : String) : String := ⟨s.data.map transChar⟩

/-! ## String helpers -/

/-- Python's substring test `pat in s`, on code-point lists:
some suffix of `l` has `pat` as a prefix. -/
def hasSeg (pat : List Char) : List Char → Bool
  | [] => pat.isEmpty
  | c :: cs => pat.isPrefixOf (c :: cs) || hasSeg pat cs

/-- Python's `pat in s` on strings. -/
def strContains (s pat : String) : Bool := hasSeg pat.data s.data

/-- The spec-side "starts with" relation, on code points. -/
def startsWithStr (s pat : String) : Bool := pat.data.isPrefixOf s.data

/-- Whitespace stripped by Python `str.strip()` (the ASCII whitespace
characters; the rare non-ASCII whitespace code points do not occur in the
modelled documents). -/
def isStripWS (c : Char) : Bool :=
  c = ' ' || c = '\t' || c = '\n' || c = '\r' || c = '\x0b' || c = '\x0c'

/-- Python `str.strip()`: drop whitespace from both ends. -/
def trimStr (s : String) : String :=
  ⟨((s.data.dropWhile isStripWS).reverse.dropWhile isStripWS).reverse⟩

/-- The character class removed by `re.sub(r"[৳,\s]", "", ...)`:
the currency glyph, the comma, and whitespace (`\s`; the rare non-ASCII
whitespace code points also matched by Python's `\s` do not occur in the
modelled documents). -/
def isPriceStripChar (c : Char) : Bool :=
  c = '৳' || c = ',' || c = ' ' || c = '\t' || c = '\n' || c = '\r' ||
  c = '\x0b' || c = '\x0c'

/-! ## Document model (BeautifulSoup trees) -/

/-- An HTML node: an element with tag, class list, attributes and children,
or a text node. -/
inductive Node where
  | elem (tag : String) (classes : List String)
      (attrs : List (String × String)) (children : List Node)
  | text (s : String)
deriving Repr

/-- A parsed document: the top-level node list of the soup. -/
abbrev Html := List Node

def Node.tag? : Node → Option String
  | .elem t _ _ _ => some t
  | .text _ => none

def Node.classList : Node → List String
  | .elem _ cs _ _ => cs
  | .text _ => []

def Node.attr : Node → String → Option String
  | .elem _ _ as _, key => (as.find? (fun p => p.1 = key)).map (·.2)
  | .text _, _ => none

def Node.isTag (n : Node) (t : String) : Bool := n.tag? = some t

/-- BeautifulSoup `class_=re.compile(r"^pat")`: some class of the element
matches the anchored pattern, i.e. starts with `pat`. -/
def Node.classStarts (n : Node) (pat : String) : Bool :=
  n.classList.any (fun c => pat.data.isPrefixOf c.data)

/-- BeautifulSoup `class_=re.compile(r"pat")` (unanchored): some class of the
element contains `pat`. -/
def Node.classHas (n : Node) (pat : String) : Bool :=
  n.classList.any (fun c => strContains c pat)

mutual
/-- All text-node strings below a node, in document order
(the strings BeautifulSoup `get_text` concatenates). -/
def textsOf : Node → List String
  | .text s => [s]
  | .elem _ _ _ cs => textsOfList cs

def textsOfList : List Node → List String
  | [] => []
  | n :: ns => textsOf n ++ textsOfList ns
end

/-- Model of `get_text(strip=True)`: strip each string, drop the ones that become
empty, concatenate. -/
def getTextStrip (n : Node) : String :=
  String.join (((textsOf n).map trimStr).filter (fun s => s ≠ ""))

/-- Model of `get_text(" ", strip=True)`: same, joined with single spaces. -/
def getTextSepStrip (n : Node) : String :=
  String.intercalate " " (((textsOf n).map trimStr).filter (fun s => s ≠ ""))

mutual
/-- Every element of a node list paired with its following siblings,
in pre-order (the traversal order of `find_all`, with the sibling
context needed by `find_next_sibling`). -/
def elemsPairsList : List Node → List (Node × List Node)
  | [] => []
  | n :: ns => elemsPairsNode n ns ++ elemsPairsList ns

def elemsPairsNode : Node → List Node → List (Node × List Node)
  | .text _, _ => []
  | .elem t c a cs, sibs => (.elem t c a cs, sibs) :: elemsPairsList cs
end

/-- All elements of the document in pre-order (`soup.find_all`). -/
def allElems (doc : Html) : List Node := (elemsPairsList doc).map (·.1)

/-- Query `soup.find_all(pred)` restricted by a predicate. -/
def findAll (doc : Html) (p : Node → Bool) : List Node := (allElems doc).filter p

/-- Query `soup.find(pred)`: first matching element in pre-order. -/
def findFirst (doc : Html) (p : Node → Bool) : Option Node :=
  (allElems doc).find? p

/-- Queries `find_all` / `find` inside an element search its descendants only. -/
def childScope : Node → Html
  | .elem _ _ _ cs => cs
  | .text _ => []

def findAllIn (n : Node) (p : Node → Bool) : List Node := findAll (childScope n) p

def findIn (n : Node) (p : Node → Bool) : Option Node := findFirst (childScope n) p

/-- Model of `div.find_next_sibling("div")`: first following sibling that is a `div`
element (text nodes and other tags are skipped). -/
def nextSiblingDiv (sibs : List Node) : Option Node :=
  sibs.find? (fun n => n.isTag "div")

/-! ## Python `int()` on strings (used by the price parse) -/

/-- Digit value of a character as accepted by Python `int()`: ASCII digits
(after translation these are the only digits the pipeline produces; Bangla
digits, which `int()` would also accept, are included for faithfulness). -/
def digitVal (c : Char) : Option Nat :=
  if '0' ≤ c ∧ c ≤ '9' then some (c.toNat - 48)
  else (banglaDigit? c).map (fun d => d.toNat - 48)

/-- Digit run with single underscores allowed between digits
(`int("1_000") = 1000`); `lastDigit` records whether the previous
character was a digit. -/
def parseUDigits : List Char → Nat → Bool → Option Nat
  | [], acc, lastDigit => if lastDigit then some acc else none
  | c :: cs, acc, lastDigit =>
    match digitVal c with
    | some d => parseUDigits cs (acc * 10 + d) true
    | none =>
      if c = '_' && lastDigit then parseUDigits cs acc false else none

/-- Python `int(s)` for strings: strip surrounding whitespace, optional
sign, then a non-empty digit run (underscore-separated); any other input
raises, modelled as `none`. -/
def parseIntPy (s : String) : Option Int :=
  match ((s.data.dropWhile isPriceStripChar).reverse.dropWhile
      isPriceStripChar).reverse with
  | '-' :: rest =>
    match parseUDigits rest 0 false with
    | some n => some (-(n : Int))
    | none => none
  | '+' :: rest =>
    match parseUDigits rest 0 false with
    | some n => some ((n : Int))
    | none => none
  | rest =>
    match parseUDigits rest 0 false with
    | some n => some ((n : Int))
    | none => none

/-! ## `strptime` for the fixed format `"%d %b %I:%M %p %Y"` -/

def MONTHS : List String :=
  ["Jan", "Feb", "Mar", "Apr", "May", "Jun",
   "Jul", "Aug", "Sep", "Oct", "Nov", "Dec"]

def monthNum (s : String) : Option Nat :=
  (MONTHS.indexOf? s).map (· + 1)

/-- Value of a non-empty all-ASCII-digit string of length at most `maxLen`. -/
def asciiNum (s : String) (maxLen : Nat) : Option Nat :=
  if s.data ≠ [] ∧ s.data.length ≤ maxLen ∧
      s.data.all (fun c => '0' ≤ c ∧ c ≤ '9') then
    some (s.data.foldl (fun acc c => acc * 10 + (c.toNat - 48)) 0)
  else none

def isLeap (y : Nat) : Bool := y % 4 = 0 && (y % 100 ≠ 0 || y % 400 = 0)

def daysInMonth (y m : Nat) : Nat :=
  if m = 2 then (if isLeap y then 29 else 28)
  else if m = 4 ∨ m = 6 ∨ m = 9 ∨ m = 11 then 30
  else 31

def pad2 (n : Nat) : String := if n < 10 then "0" ++ toString n else toString n

def pad4 (n : Nat) : String :=
  if n < 10 then "000" ++ toString n
  else if n < 100 then "00" ++ toString n
  else if n < 1000 then "0" ++ toString n
  else toString n

/-- Model of `datetime.strptime(s, "%d %b %I:%M %p %Y")` followed by
`strftime("%Y-%m-%d")` / `strftime("%H:%M")`, returning
`(time_str, date_str)`; `none` models the caught `ValueError`.
Whitespace runs separate the tokens, as in `strptime`. -/
def strptimeDHM (s : String) : Option (String × String) :=
  match (s.splitOn " ").filter (fun t => t ≠ "") with
  | [dS, monS, hmS, merS, yS] =>
    match asciiNum dS 2, monthNum monS, hmS.splitOn ":", asciiNum yS 4 with
    | some day, some mon, [hS, mS], some yr =>
      match asciiNum hS 2, asciiNum mS 2 with
      | some h12, some minute =>
        if 1 ≤ day ∧ day ≤ daysInMonth yr mon ∧ 1 ≤ h12 ∧ h12 ≤ 12 ∧
            minute ≤ 59 ∧ (merS = "AM" ∨ merS = "PM") then
          let h24 :=
            if merS = "PM" then (if h12 = 12 then 12 else h12 + 12)
            else (if h12 = 12 then 0 else h12)
          some (pad2 h24 ++ ":" ++ pad2 minute,
                pad4 yr ++ "-" ++ pad2 mon ++ "-" ++ pad2 day)
        else none
      | _, _ => none
    | _, _, _, _ => none
  | _ => none

/-! ## Field extraction (`scraper.py`) -/

/-- Result type of `extract_fields`: exactly the three values of `FIELD_MAP`. -/
structure Fields where
  Condition : Option String
  Model : Option String
  Brand : Option String
deriving DecidableEq, Repr

/-- Assignment `result[key] = value` for the three known keys of `FIELD_MAP`. -/
def setField (r : Fields) (key : String) (v : String) : Fields :=
  if key = "Condition" then { r with Condition := some v }
  else if key = "Model" then { r with Model := some v }
  else if key = "Brand" then { r with Brand := some v }
  else r

/-- Loop body of `extract_fields`: for a `div`, if its stripped text is a
`FIELD_MAP` label and it has a following sibling `div`, store that
sibling's stripped text under the mapped key. -/
def fieldsStep (r : Fields) (p : Node × List Node) : Fields :=
  if p.1.isTag "div" then
    match FIELD_MAP.lookup (getTextStrip p.1) with
    | some key =>
      match nextSiblingDiv p.2 with
      | some nd => setField r key (getTextStrip nd)
      | none => r
    | none => r
  else r

/-- Model of `extract_fields(soup)`: fold the loop body over all elements
(the non-`div` ones are skipped by the body) starting from all-`None`. -/
def extract_fields (doc : Html) : Fields :=
  (elemsPairsList doc).foldl fieldsStep ⟨none, none, none⟩

/-- Model of `extract_images(soup)`: every `img` element with a `src` attribute, in
document order, keeping the `src` values in which the avatar-host pattern
does not occur (`"https://i.bikroy-st.com/u/" not in img['src']`). -/
def extract_images (doc : Html) : List String :=
  (findAll doc (fun n => n.isTag "img" && (n.attr "src").isSome)).foldl
    (fun acc img =>
      match img.attr "src" with
      | some src => if strContains src AVATAR_HOST then acc else acc ++ [src]
      | none => acc) []

/-- The lazy capture of `re.search(r"পোস্ট করা হয়েছে\s*(.*?)\s*,", text)`:
the text between the first occurrence of the marker and the first comma
after it, trimmed; `none` when marker or comma is missing.  (The
newline-exclusion of `.*?` is not modelled; the marker and comma occur on
one line in the modelled documents.) -/
def extractPostedPhrase (text : String) : Option String :=
  match text.splitOn "পোস্ট করা হয়েছে" with
  | _ :: piece :: pieces =>
    let after := String.intercalate "পোস্ট করা হয়েছে" (piece :: pieces)
    match after.splitOn "," with
    | seg :: _ :: _ => some (trimStr seg)
    | _ => none
  | _ => none

def applyMonthMap (s : String) : String :=
  MONTH_MAP.foldl (fun acc p => acc.replace p.1 p.2) s

/-- Model of `parse_date_time(soup, url)` with the reference year passed explicitly
(the code reads `datetime.now().year`). Returns
`(published_time, published_date)`. -/
def parse_date_time (doc : Html) (url : String) (year : Nat) :
    Option String × Option String :=
  match findFirst doc (fun n => n.isTag "div") with
  | none => (none, none)
  | some d =>
    let text := getTextSepStrip d
    if strContains url "post-ad?" then (none, none)
    else
      match extractPostedPhrase text with
      | none => (none, none)
      | some banglaDt =>
        let engDt :=
          ((applyMonthMap (translateDigits banglaDt)).replace "এএম" "AM").replace
            "পিএম" "PM"
        match strptimeDHM (engDt ++ " " ++ toString year) with
        | none => (none, none)
        | some (timeStr, dateStr) => (some timeStr, some dateStr)

/-- Title: first `h1` whose class starts with `title--`. -/
def extract_title (doc : Html) : Option String :=
  (findFirst doc (fun n => n.isTag "h1" && n.classStarts "title--")).map
    getTextStrip

/-- The cleaned, digit-normalized text fed to `int()` by the price parse:
`re.sub(r"[৳,\s]", "", price_text).translate(BANGLA_TO_ENGLISH)`;
`none` when no amount element exists (`price_tag.get_text` raises,
caught by the surrounding `try`). -/
def priceText (doc : Html) : Option String :=
  (findFirst doc (fun n => n.isTag "div" && n.classStarts "amount")).map
    (fun tag =>
      translateDigits ⟨(getTextStrip tag).data.filter
        (fun c => !isPriceStripChar c)⟩)

/-- Price: `int(...)` of the cleaned text; any failure is caught and the
field is absent. -/
def extract_price (doc : Html) : Option Int :=
  (priceText doc).bind parseIntPy

/-- Location hierarchy: anchor texts inside the subtitle wrapper. -/
def extract_locations (doc : Html) : List String :=
  match findFirst doc (fun n => n.isTag "div" && n.classHas "subtitle-wrapper") with
  | none => []
  | some w =>
    (findAllIn w (fun n => n.isTag "a" && n.classHas "subtitle-location-link")).map
      getTextStrip

/-- The features query: first `div` whose class starts with `features`. -/
def featuresDiv (doc : Html) : Option Node :=
  findFirst doc (fun n => n.isTag "div" && n.classStarts "features")

/-- Features: first `p` inside the features `div`; absent when either the
container or the paragraph is missing. -/
def extract_features (doc : Html) : Option String :=
  match featuresDiv doc with
  | none => none
  | some ft =>
    match findIn ft (fun n => n.isTag "p") with
    | none => none
    | some p => some (getTextStrip p)

/-- Description: the non-empty stripped paragraph texts inside the
description `div`, joined with newlines (empty string when the container
is missing). -/
def extract_description (doc : Html) : String :=
  let paras :=
    match findFirst doc (fun n => n.isTag "div" && n.classStarts "description") with
    | none => []
    | some d => findAllIn d (fun n => n.isTag "p")
  String.intercalate "\n" ((paras.map getTextStrip).filter (fun s => s ≠ ""))

/-- Seller name: text of the `contact-name`-classed `div`. -/
def extract_seller (doc : Html) : Option String :=
  (findFirst doc (fun n => n.isTag "div" && n.classHas "contact-name")).map
    getTextStrip

/-! ## The persisted record (`data` dict of `clean_html`) -/

/-- The record assembled by `clean_html` and stored by `save_to_db`
(`Img_urls` is kept as the image list; `json.dumps` is serialization
only). -/
structure ListingData where
  URL : String
  Title : Option String
  Price : Option Int
  Published_time : Option String
  Published_Date : Option String
  Seller_name : Option String
  Condition : Option String
  Model : Option String
  Brand : Option String
  Features : Option String
  Description : String
  Location : Option String
  Division : Option String
  Img_urls : List String
  Date : String
deriving DecidableEq, Repr

/-- The pure extraction part of `clean_html` (lines 241-307): build the
`data` dict from a fetched document.  `today` stands for
`datetime.now().strftime("%Y-%m-%d")` and `year` for
`datetime.now().year`. -/
def docToData (doc : Html) (url today : String) (year : Nat) : ListingData :=
  let dt := parse_date_time doc url year
  let fields := extract_fields doc
  let locs := extract_locations doc
  { URL := url
    Title := extract_title doc
    Price := extract_price doc
    Published_time := dt.1
    Published_Date := dt.2
    Seller_name := extract_seller doc
    Condition := fields.Condition
    Model := fields.Model
    Brand := fields.Brand
    Features := extract_features doc
    Description := extract_description doc
    Location := locs[0]?
    Division := locs[1]?
    Img_urls := extract_images doc
    Date := today }

/-! ## Persistence gateway (`dbmanage.py`) -/

/-- The record store: the rows of the `mobiles` table in insertion order
(`URL` is the primary key). -/
abbrev Store := List ListingData

/-- Model of `get_existing_urls()`: every persisted key. -/
def knownURLs (store : Store) : List String := store.map (·.URL)

/-- Model of `save_to_db(data)`: `INSERT OR IGNORE` — append the row only when no
row with the same `URL` key exists, otherwise leave the table unchanged. -/
def save_to_db (store : Store) (data : ListingData) : Store :=
  if (knownURLs store).contains data.URL then store else store ++ [data]

/-- The row stored under a key. -/
def lookupRow (store : Store) (u : String) : Option ListingData :=
  store.find? (fun r => r.URL = u)

/-- Model of `filter_new_urls(all_urls)`: keep, in order, the URLs not already in
the store. -/
def filter_new_urls (store : Store) (all_urls : List String) : List String :=
  all_urls.filter (fun u => !(knownURLs store).contains u)

/-! ## Detail fetcher / retrier (`clean_html`, `scrape_mobile_inf`) -/

/-- Outcome of one `session.get` attempt on a detail URL.  `http` carries
the status, the body (parsed) and whether the subsequent `save_to_db`
call would succeed; `timeoutErr` is `asyncio.TimeoutError`; `otherErr`
is any other exception of the fetch. -/
inductive FetchOutcome where
  | http (status : Nat) (doc : Html) (saveOk : Bool)
  | timeoutErr
  | otherErr
deriving Repr

/-- Model of `clean_html(session, url, retry_count)` driven by a fetch oracle `F`
(attempt number ↦ outcome).  Returns the saved record (for the Python
`True` path) or `none` (the Python `None` path), together with the total
number of fetch attempts performed from this call on.  Non-200 responses
return immediately with no retry; timeouts and other exceptions recurse
with `retry_count + 1` while `retry_count < MAX_RETRIES`. -/
def clean_html (F : Nat → FetchOutcome) (url today : String) (year : Nat)
    (rc : Nat) : Option ListingData × Nat :=
  match F rc with
  | .http status doc saveOk =>
    if status ≠ 200 then (none, 1)
    else if saveOk then (some (docToData doc url today year), 1)
    else (none, 1)
  | .timeoutErr =>
    if _h : rc < MAX_RETRIES then
      let r := clean_html F url today year (rc + 1)
      (r.1, r.2 + 1)
    else (none, 1)
  | .otherErr =>
    if _h : rc < MAX_RETRIES then
      let r := clean_html F url today year (rc + 1)
      (r.1, r.2 + 1)
    else (none, 1)
termination_by MAX_RETRIES - rc
decreasing_by all_goals omega

/-- Model of `scrape_mobile_inf(urls)`: run `clean_html` on each URL (oracle `F`
maps a URL and an attempt number to an outcome) and collect into
`failed_urls` every URL whose result is `None`.  The concurrent gather is
modelled sequentially; the claims below concern membership and counts,
which do not depend on completion order. -/
def scrape_mobile_inf (F : String → Nat → FetchOutcome) (today : String)
    (year : Nat) (urls : List String) : List String :=
  urls.foldl
    (fun failed link =>
      if (clean_html (F link) link today year 0).1.isNone then failed ++ [link]
      else failed) []

/-! ## Listing-link collector (`scrape_page`, `scraping_mobile_links`) -/

/-- Link extraction of `scrape_page`: inside the `ul` with
`data-testid="list"`, for each `li` the first descendant `a` with an
`href`; relative hrefs are resolved against `BASE_URL`. -/
def scrape_page_links (doc : Html) : List String :=
  match findFirst doc
      (fun n => n.isTag "ul" && (n.attr "data-testid" = some "list")) with
  | none => []
  | some ul =>
    (findAllIn ul (fun n => n.isTag "li")).foldl
      (fun acc li =>
        match findIn li (fun n => n.isTag "a" && (n.attr "href").isSome) with
        | some a =>
          match a.attr "href" with
          | some href =>
            acc ++ [if "/".data.isPrefixOf href.data then BASE_URL ++ href else href]
          | none => acc
        | none => acc) []

/-- Model of `scraping_mobile_links()` after the gather: the per-page link lists are
concatenated in page order with `all_links.extend(result)` — no
deduplication. -/
def scraping_mobile_links (pageResults : List (List String)) : List String :=
  pageResults.foldl (fun acc r => acc ++ r) []

/-! ## Sample data for witnesses -/

/-- A stored row keyed by `"u"`, with payload title `t1`. -/
def rowU : ListingData :=
  { URL := "u", Title := some "t1", Price := some 1, Published_time := none,
    Published_Date := none, Seller_name := none, Condition := none,
    Model := none, Brand := none, Features := none, Description := "",
    Location := none, Division := none, Img_urls := [], Date := "d" }

/-- The same key with a different payload. -/
def rowU2 : ListingData := { rowU with Title := some "t2" }

/-! ## C3: first-write-wins upsert -/

/-- Claim C3: `upsert` is first-write-wins and idempotent: when a record keyed
by `u` is already stored, upserting any record keyed by `u` leaves the store
(and hence the stored record for `u`) unchanged; upserting the same URL
twice with different payloads leaves the first payload stored. -/
theorem c3_upsert_first_write_wins (store : Store) (d : ListingData)
    (h : d.URL ∈ knownURLs store) :
    save_to_db store d = store ∧
    (∀ (s : Store) (d1 d2 : ListingData), d2.URL = d1.URL →
      save_to_db (save_to_db s d1) d2 = save_to_db s d1) ∧
    (∀ (s : Store) (d1 d2 : ListingData), d2.URL = d1.URL →
      d1.URL ∉ knownURLs s →
      lookupRow (save_to_db (save_to_db s d1) d2) d1.URL = some d1) := by
  have save_mem : ∀ (s : Store) (e : ListingData), e.URL ∈ knownURLs s →
      save_to_db s e = s := by
    intro s e he
    unfold save_to_db
    simp [he]
  have mem_after : ∀ (s : Store) (d1 : ListingData),
      d1.URL ∈ knownURLs (save_to_db s d1) := by
    intro s d1
    unfold save_to_db
    by_cases hc : (knownURLs s).contains d1.URL
    · simp only [hc, if_true]
      simpa using hc
    · simp only [hc, if_false]
      simp [knownURLs]
  have absorb : ∀ (s : Store) (d1 d2 : ListingData), d2.URL = d1.URL →
      save_to_db (save_to_db s d1) d2 = save_to_db s d1 := by
    intro s d1 d2 hurl
    exact save_mem _ _ (hurl ▸ mem_after s d1)
  refine ⟨save_mem store d h, absorb, ?_⟩
  intro s d1 d2 hurl hnot
  rw [absorb s d1 d2 hurl]
  unfold save_to_db
  have hc : (knownURLs s).contains d1.URL = false := by
    simpa using hnot
  simp only [hc, Bool.false_eq_true, if_false]
  unfold lookupRow
  rw [List.find?_append]
  have hfind : s.find? (fun r => r.URL = d1.URL) = none := by
    rw [List.find?_eq_none]
    intro r hr
    simp only [decide_eq_true_eq]
    intro hru
    exact hnot (hru ▸ List.mem_map_of_mem (·.URL) hr)
  simp [hfind]

/-- Witness for C3 at a concrete store: the second write of a different
payload under the same key leaves the first payload stored. -/
theorem c3_upsert_first_write_wins_witness :
    save_to_db [rowU] rowU2 = [rowU] ∧
    lookupRow (save_to_db (save_to_db [] rowU) rowU2) "u" = some rowU := by
  have h := c3_upsert_first_write_wins [rowU] rowU2 (by decide)
  refine ⟨h.1, ?_⟩
  have h2 := h.2.2 [] rowU rowU2 (by decide) (by decide)
  simpa using h2

/-! ## C4: `filter_new_urls` is an order-preserving set difference -/

/-- Claim C4: `filter_new_urls` returns exactly the order-preserving
subsequence of its input consisting of the URLs not in the store: it is a
sublist of the input, every element of the output is an input element not
in `knownURLs`, and every input element not in `knownURLs` appears in the
output. -/
theorem c4_filter_unknown_subseq (store : Store) (urls : List String) :
    (filter_new_urls store urls).Sublist urls ∧
    (∀ u ∈ filter_new_urls store urls, u ∈ urls) ∧
    (∀ u ∈ filter_new_urls store urls, u ∉ knownURLs store) ∧
    (∀ u ∈ urls, u ∉ knownURLs store → u ∈ filter_new_urls store urls) := by
  refine ⟨List.filter_sublist urls, ?_, ?_, ?_⟩
  · intro u hu
    exact List.mem_of_mem_filter hu
  · intro u hu
    have := List.of_mem_filter hu
    simpa using this
  · intro u hu hnot
    refine List.mem_filter.mpr ⟨hu, ?_⟩
    simpa using hnot

/-- Witness for C4: concrete store `{u}` and input `[u, v]`. -/
theorem c4_filter_unknown_subseq_witness :
    (filter_new_urls [rowU] ["u", "v"]).Sublist ["u", "v"] ∧
    "v" ∈ ["u", "v"] ∧ "v" ∉ knownURLs [rowU] := by
  have h := c4_filter_unknown_subseq [rowU] ["u", "v"]
  have hv : "v" ∈ filter_new_urls [rowU] ["u", "v"] := by decide
  exact ⟨h.1, h.2.1 "v" hv, h.2.2.1 "v" hv⟩

/-! ## C9: no intra-run dedup before the Detail Fetcher -/

/-- Folding `extend` over the gathered page results is plain concatenation. -/
theorem scraping_links_join (pageResults : List (List String)) :
    scraping_mobile_links pageResults = pageResults.flatten := by
  unfold scraping_mobile_links
  suffices h : ∀ acc : List String,
      pageResults.foldl (fun acc r => acc ++ r) acc = acc ++ pageResults.flatten by
    simpa using h []
  induction pageResults with
  | nil => simp
  | cons r rs ih =>
    intro acc
    simp [ih, List.append_assoc]

/-- Claim C9: Duplicate URLs inside one run are not deduplicated: a URL `u`
absent from the store keeps its full multiplicity both through link
collection (pure concatenation of the per-page results) and through
`filter_new_urls`, so it would be fetched once per occurrence. -/
theorem c9_no_intra_run_dedup (pageResults : List (List String))
    (store : Store) (u : String) (h : u ∉ knownURLs store) :
    List.count u (scraping_mobile_links pageResults) =
      (pageResults.map (List.count u)).sum ∧
    List.count u (filter_new_urls store (scraping_mobile_links pageResults)) =
      List.count u (scraping_mobile_links pageResults) := by
  constructor
  · rw [scraping_links_join]
    exact List.count_flatten u pageResults
  · unfold filter_new_urls
    refine List.count_filter ?_
    simpa using h

/-- Witness for C9: a URL appearing twice on page 1 and once on page 2
stays at multiplicity 3 through collection and filtering. -/
theorem c9_no_intra_run_dedup_witness :
    List.count "a" (scraping_mobile_links [["a", "a"], ["a", "b"]]) =
      ([["a", "a"], ["a", "b"]].map (List.count "a")).sum ∧
    List.count "a"
        (filter_new_urls [rowU] (scraping_mobile_links [["a", "a"], ["a", "b"]])) =
      List.count "a" (scraping_mobile_links [["a", "a"], ["a", "b"]]) :=
  c9_no_intra_run_dedup [["a", "a"], ["a", "b"]] [rowU] "a" (by decide)

/-! ## C8: digit normalization -/

/-- Claim C8: `translate(BANGLA_TO_ENGLISH)` is total, length-preserving, acts
character-by-character, maps each of the ten Bangla digits to its ASCII
equivalent, and leaves every character outside the translation table
verbatim. -/
theorem c8_translate_digits (s : String) :
    (translateDigits s).length = s.length ∧
    (translateDigits s).data = s.data.map transChar ∧
    (∀ c : Char, banglaDigit? c = none → transChar c = c) ∧
    translateDigits "০১২৩৪৫৬৭৮৯" = "0123456789" := by
  refine ⟨?_, rfl, ?_, by decide⟩
  · show (s.data.map transChar).length = s.data.length
    exact List.length_map s.data transChar
  · intro c hc
    unfold transChar
    rw [hc]
    rfl

/-- Witness for C8: a mixed Bangla/ASCII string keeps its length and the
non-digit character `a` passes through verbatim. -/
theorem c8_translate_digits_witness :
    (translateDigits "৫a০").length = ("৫a০" : String).length ∧
    transChar 'a' = 'a' :=
  ⟨(c8_translate_digits "৫a০").1, (c8_translate_digits "৫a০").2.2.1 'a' (by decide)⟩

/-! ## C1 / C2: the retry policy of `clean_html` -/

/-- One unfolding of `clean_html` on a non-200 response: return immediately,
a single attempt, no retry. -/
theorem clean_html_non200 (F : Nat → FetchOutcome) (url today : String)
    (year : Nat) (rc status : Nat) (doc : Html) (sv : Bool)
    (hf : F rc = FetchOutcome.http status doc sv) (hs : status ≠ 200) :
    clean_html F url today year rc = (none, 1) := by
  unfold clean_html
  rw [hf]
  simp [hs]

/-- Claim C1 counterexample: The claim says a non-200 URL "is not recorded
in the run's failed-URL set".  With a fetch oracle answering HTTP 404, the
run's failed set after `scrape_mobile_inf` nevertheless contains the URL. -/
theorem c1_counterexample :
    "u" ∈ scrape_mobile_inf (fun _ _ => FetchOutcome.http 404 [] true)
      "2026-10-12" 2026 ["u"] := by
  have h : clean_html (fun _ => FetchOutcome.http 404 [] true)
      "u" "2026-10-12" 2026 0 = (none, 1) :=
    clean_html_non200 _ _ _ _ _ _ _ _ rfl (by decide)
  unfold scrape_mobile_inf
  simp [h]

/-- Claim C1 amended: On a non-200 response the Detail Fetcher does skip the
URL without any retry (exactly one fetch attempt, no success), but the URL
IS recorded in the run's failed-URL set: `clean_html` returns the failure
sentinel and the recording site cannot distinguish it from retry
exhaustion. -/
theorem c1_non200_skip_but_recorded (F : String → Nat → FetchOutcome)
    (u today : String) (year status : Nat) (doc : Html) (sv : Bool)
    (hf : F u 0 = FetchOutcome.http status doc sv) (hs : status ≠ 200) :
    clean_html (F u) u today year 0 = (none, 1) ∧
    scrape_mobile_inf F today year [u] = [u] := by
  have h1 : clean_html (F u) u today year 0 = (none, 1) :=
    clean_html_non200 (F u) u today year 0 status doc sv hf hs
  refine ⟨h1, ?_⟩
  unfold scrape_mobile_inf
  simp [h1]

/-- Witness for C1 (amended) at the concrete 404 oracle. -/
theorem c1_non200_skip_but_recorded_witness :
    clean_html ((fun _ _ => FetchOutcome.http 404 [] true) "u")
      "u" "2026-10-12" 2026 0 = (none, 1) ∧
    scrape_mobile_inf (fun _ _ => FetchOutcome.http 404 [] true)
      "2026-10-12" 2026 ["u"] = ["u"] :=
  c1_non200_skip_but_recorded (fun _ _ => FetchOutcome.http 404 [] true)
    "u" "2026-10-12" 2026 404 [] true rfl (by decide)

/-- Claim C2: With `MAX_RETRIES = 3`, an always-timing-out detail fetch makes
exactly 4 attempts (1 initial + 3 retries), yields the failure sentinel,
and the URL is recorded exactly once in the failed set. -/
theorem c2_timeout_four_attempts (F : String → Nat → FetchOutcome)
    (u today : String) (year : Nat)
    (hT : ∀ n, F u n = FetchOutcome.timeoutErr) :
    MAX_RETRIES = 3 ∧
    clean_html (F u) u today year 0 = (none, MAX_RETRIES + 1) ∧
    List.count u (scrape_mobile_inf F today year [u]) = 1 := by
  have h3 : clean_html (F u) u today year 3 = (none, 1) := by
    unfold clean_html
    rw [hT]
    simp [MAX_RETRIES]
  have h2 : clean_html (F u) u today year 2 = (none, 2) := by
    unfold clean_html
    rw [hT]
    simp [MAX_RETRIES, h3]
  have h1 : clean_html (F u) u today year 1 = (none, 3) := by
    unfold clean_html
    rw [hT]
    simp [MAX_RETRIES, h2]
  have h0 : clean_html (F u) u today year 0 = (none, 4) := by
    unfold clean_html
    rw [hT]
    simp [MAX_RETRIES, h1]
  refine ⟨rfl, by simpa [MAX_RETRIES] using h0, ?_⟩
  unfold scrape_mobile_inf
  simp [h0]

/-- Witness for C2 at the constant-timeout oracle. -/
theorem c2_timeout_four_attempts_witness :
    MAX_RETRIES = 3 ∧
    clean_html ((fun _ _ => FetchOutcome.timeoutErr) "u")
      "u" "2026-10-12" 2026 0 = (none, MAX_RETRIES + 1) ∧
    List.count "u" (scrape_mobile_inf (fun _ _ => FetchOutcome.timeoutErr)
      "2026-10-12" 2026 ["u"]) = 1 :=
  c2_timeout_four_attempts (fun _ _ => FetchOutcome.timeoutErr)
    "u" "2026-10-12" 2026 (fun _ => rfl)

/-! ## C5: image extraction -/

/-- The image-loop body of `extract_images`. -/
def imgStep (acc : List String) (img : Node) : List String :=
  match img.attr "src" with
  | some src => if strContains src AVATAR_HOST then acc else acc ++ [src]
  | none => acc

/-- The appending loop of `extract_images` is the substring-filtered list of
`src` values, in order. -/
theorem imgStep_foldl (l : List Node) (acc : List String) :
    l.foldl imgStep acc =
      acc ++ (l.filterMap (fun n => n.attr "src")).filter
        (fun s => !strContains s AVATAR_HOST) := by
  induction l generalizing acc with
  | nil => simp
  | cons n l ih =>
    rw [List.foldl_cons, ih, List.filterMap_cons]
    unfold imgStep
    cases h : n.attr "src" with
    | none => simp
    | some src =>
      by_cases hc : strContains src AVATAR_HOST
      · simp [hc]
      · simp [hc]

/-- If a pattern occurs nowhere in a list, it is in particular not a
prefix of it. -/
theorem isPrefixOf_of_hasSeg (pat l : List Char) (h : hasSeg pat l = false) :
    pat.isPrefixOf l = false := by
  cases l with
  | nil =>
    unfold hasSeg at h
    cases pat with
    | nil => simp [List.isEmpty] at h
    | cons c cs => rfl
  | cons c cs =>
    unfold hasSeg at h
    exact (Bool.or_eq_false_iff.mp h).1

/-- Claim C5 amended: `extract_images` returns exactly the `src` values of
the document's image elements in whose source the avatar-host pattern does
not occur as a substring (the code tests `pattern in src`, not a prefix),
in document order; consequently no returned URL starts with the excluded
pattern. -/
theorem c5_images_substring_filter (doc : Html) :
    extract_images doc =
      ((findAll doc (fun n => n.isTag "img" && (n.attr "src").isSome)).filterMap
        (fun n => n.attr "src")).filter
        (fun s => !strContains s AVATAR_HOST) ∧
    ∀ s ∈ extract_images doc, startsWithStr s AVATAR_HOST = false := by
  have heq : extract_images doc =
      ((findAll doc (fun n => n.isTag "img" && (n.attr "src").isSome)).filterMap
        (fun n => n.attr "src")).filter
        (fun s => !strContains s AVATAR_HOST) := by
    unfold extract_images
    have := imgStep_foldl
      (findAll doc (fun n => n.isTag "img" && (n.attr "src").isSome)) []
    unfold imgStep at this
    simpa using this
  refine ⟨heq, ?_⟩
  intro s hs
  rw [heq] at hs
  have hc : (!strContains s AVATAR_HOST) = true := (List.mem_filter.mp hs).2
  have hcf : strContains s AVATAR_HOST = false := by
    simpa using hc
  unfold startsWithStr
  unfold strContains at hcf
  exact isPrefixOf_of_hasSeg _ _ hcf

/-- A document with one image whose source merely contains (but does not
start with) the avatar-host pattern. -/
def c5doc : Html :=
  [Node.elem "img" []
    [("src", "http://x.com/?u=https://i.bikroy-st.com/u/p.jpg")] []]

/-- Claim C5 counterexample: The claim as stated keeps every source that
does not start with the avatar prefix; but this source does not start with
the prefix and is nevertheless excluded (the code tests substring
containment, not a prefix). -/
theorem c5_counterexample :
    extract_images c5doc = [] ∧
    (findAll c5doc (fun n => n.isTag "img" && (n.attr "src").isSome)).filterMap
      (fun n => n.attr "src") =
      ["http://x.com/?u=https://i.bikroy-st.com/u/p.jpg"] ∧
    startsWithStr "http://x.com/?u=https://i.bikroy-st.com/u/p.jpg"
      AVATAR_HOST = false := by
  refine ⟨by decide, by decide, by decide⟩

/-- Witness for C5 (amended) on a document with a kept and an excluded
image. -/
theorem c5_images_substring_filter_witness :
    extract_images
        [Node.elem "img" [] [("src", "https://i.bikroy-st.com/u/a.jpg")] [],
         Node.elem "img" [] [("src", "https://cdn.example/item1.jpg")] []] =
      ["https://cdn.example/item1.jpg"] ∧
    startsWithStr "https://cdn.example/item1.jpg" AVATAR_HOST = false := by
  have h := c5_images_substring_filter
    [Node.elem "img" [] [("src", "https://i.bikroy-st.com/u/a.jpg")] [],
     Node.elem "img" [] [("src", "https://cdn.example/item1.jpg")] []]
  refine ⟨by decide, ?_⟩
  exact h.2 "https://cdn.example/item1.jpg" (by decide)

/-! ## C7: sign of the extracted price -/

/-- Every element surviving the surrounding-whitespace strip of `int()` was
a character of the original string. -/
theorem mem_of_mem_intStrip (s : String) (c : Char)
    (h : c ∈ ((s.data.dropWhile isPriceStripChar).reverse.dropWhile
      isPriceStripChar).reverse) : c ∈ s.data := by
  have h1 := List.mem_reverse.mp h
  have h2 := (List.dropWhile_sublist _).mem h1
  have h3 := List.mem_reverse.mp h2
  exact (List.dropWhile_sublist _).mem h3

/-- Function `int()` returns a negative value only through the minus-sign branch:
without a `-` in the input the result is a natural number cast. -/
theorem parseIntPy_nonneg (s : String) (p : Int)
    (hm : '-' ∉ s.data) (hp : parseIntPy s = some p) : 0 ≤ p := by
  unfold parseIntPy at hp
  split at hp
  · next rest heq =>
    exfalso
    apply hm
    apply mem_of_mem_intStrip s '-'
    rw [heq]
    exact List.mem_cons_self _ _
  · next rest heq =>
    cases hq : parseUDigits rest 0 false with
    | some n =>
      rw [hq] at hp
      simp only [Option.some.injEq] at hp
      omega
    | none =>
      rw [hq] at hp
      simp at hp
  · next heq h1 h2 =>
    cases hq : parseUDigits
        ((s.data.dropWhile isPriceStripChar).reverse.dropWhile
          isPriceStripChar).reverse 0 false with
    | some n =>
      rw [hq] at hp
      simp only [Option.some.injEq] at hp
      omega
    | none =>
      rw [hq] at hp
      simp at hp

/-- Claim C7 amended: The extracted price, when present, is an integer; it
is non-negative whenever the cleaned, digit-normalized amount text contains
no minus sign — as in all well-formed currency markup (glyph, digits,
separators, whitespace).  A minus sign in the markup, however, flows
through to a negative stored price. -/
theorem c7_price_nonneg_without_minus (doc : Html) (s : String) (p : Int)
    (hs : priceText doc = some s) (hm : '-' ∉ s.data)
    (hp : extract_price doc = some p) : 0 ≤ p := by
  unfold extract_price at hp
  rw [hs] at hp
  exact parseIntPy_nonneg s p hm hp

/-- The spec's concrete scenario: an amount block reading `৳ ১,২০০`. -/
def amountDoc : Html :=
  [Node.elem "div" ["amount--xyz"] [] [Node.text "৳ ১,২০০"]]

/-- A document whose amount text carries a minus sign. -/
def negAmountDoc : Html :=
  [Node.elem "div" ["amount"] [] [Node.text "-500"]]

/-- Claim C7 counterexample: The claim asserts every extracted price is
non-negative; a document whose amount text is `-500` extracts the price
`-500 < 0` (Python `int()` accepts a leading minus and nothing in the code
rejects it). -/
theorem c7_counterexample :
    extract_price negAmountDoc = some (-500) ∧ ((-500 : Int) < 0) := by
  exact ⟨by decide, by decide⟩

/-- Witness for C7 (amended): the spec's `৳ ১,২০০` scenario normalizes to
`1200 ≥ 0`. -/
theorem c7_price_nonneg_without_minus_witness :
    extract_price amountDoc = some 1200 ∧ (0 : Int) ≤ 1200 :=
  ⟨by decide,
    c7_price_nonneg_without_minus amountDoc "1200" 1200 (by decide) (by decide)
      (by decide)⟩

/-! ## C6: missing markup defaults to absent, never raises -/

/-- Claim C6: Field extraction is total: on a document with no features
container the record has `Features` absent while every other field is
populated from its own markup exactly as usual (`Description` missing
markup yields the empty joined string).  No field extraction aborts record
construction. -/
theorem c6_missing_features_best_effort (doc : Html) (url today : String)
    (year : Nat) (h : featuresDiv doc = none) :
    (docToData doc url today year).Features = none ∧
    (docToData doc url today year).URL = url ∧
    (docToData doc url today year).Title = extract_title doc ∧
    (docToData doc url today year).Price = extract_price doc ∧
    (docToData doc url today year).Published_time =
      (parse_date_time doc url year).1 ∧
    (docToData doc url today year).Published_Date =
      (parse_date_time doc url year).2 ∧
    (docToData doc url today year).Seller_name = extract_seller doc ∧
    (docToData doc url today year).Condition = (extract_fields doc).Condition ∧
    (docToData doc url today year).Model = (extract_fields doc).Model ∧
    (docToData doc url today year).Brand = (extract_fields doc).Brand ∧
    (docToData doc url today year).Description = extract_description doc ∧
    (docToData doc url today year).Location = (extract_locations doc)[0]? ∧
    (docToData doc url today year).Division = (extract_locations doc)[1]? ∧
    (docToData doc url today year).Img_urls = extract_images doc ∧
    (docToData doc url today year).Date = today := by
  have hfeat : extract_features doc = none := by
    unfold extract_features
    rw [h]
  refine ⟨?_, rfl, rfl, rfl, rfl, rfl, rfl, rfl, rfl, rfl, rfl, rfl, rfl,
    rfl, rfl⟩
  show extract_features doc = none
  exact hfeat

/-- A detail page with title, price, description and seller markup but no
features container. -/
def noFeaturesDoc : Html :=
  [Node.elem "h1" ["title--3s6sd"] [] [Node.text "iPhone 11"],
   Node.elem "div" ["amount--xyz"] [] [Node.text "৳ ১,২০০"],
   Node.elem "div" ["description--abc"] []
     [Node.elem "p" [] [] [Node.text "good phone"]],
   Node.elem "div" ["contact-name--q"] [] [Node.text "Rahim"]]

/-- Witness for C6 on a concrete featureless page: `Features` is absent and
the other fields come out of their own markup (title, price, description,
seller all populated). -/
theorem c6_missing_features_best_effort_witness :
    (docToData noFeaturesDoc "u" "2026-10-12" 2026).Features = none ∧
    (docToData noFeaturesDoc "u" "2026-10-12" 2026).Title =
      extract_title noFeaturesDoc ∧
    extract_title noFeaturesDoc = some "iPhone 11" ∧
    (docToData noFeaturesDoc "u" "2026-10-12" 2026).Price =
      extract_price noFeaturesDoc ∧
    extract_price noFeaturesDoc = some 1200 ∧
    (docToData noFeaturesDoc "u" "2026-10-12" 2026).Description =
      extract_description noFeaturesDoc ∧
    extract_description noFeaturesDoc = "good phone" ∧
    (docToData noFeaturesDoc "u" "2026-10-12" 2026).Seller_name =
      extract_seller noFeaturesDoc ∧
    extract_seller noFeaturesDoc = some "Rahim" := by
  have h := c6_missing_features_best_effort noFeaturesDoc "u" "2026-10-12" 2026
    (by rfl)
  exact ⟨h.1, h.2.2.1, by decide, h.2.2.2.1, by decide, h.2.2.2.2.2.2.2.2.2.2.1,
    by decide, h.2.2.2.2.2.2.1, by decide⟩

/-! ## C10: labeled-attribute extraction keeps the last match with a sibling -/

/-- Spec-side candidate for one traversal entry: the stripped text of the
following sibling `div`, when the entry is a `div` whose exact stripped
text equals the label and such a sibling exists; `none` otherwise. -/
def candFor (label : String) (p : Node × List Node) : Option String :=
  if p.1.isTag "div" = true ∧ getTextStrip p.1 = label then
    (nextSiblingDiv p.2).map getTextStrip
  else none

/-- All candidate values for a label over a traversal, in document order. -/
def fieldCands (label : String) (l : List (Node × List Node)) : List String :=
  l.filterMap (candFor label)

theorem getLast?_cons_or {α : Type} (v : α) (t : List α) (y : Option α) :
    (v :: t).getLast?.or y = t.getLast?.or (some v) := by
  cases t with
  | nil => rfl
  | cons b t =>
    cases h : (b :: t).getLast? with
    | some w => simp [List.getLast?_cons_cons, h]
    | none => simp at h

theorem fieldsStep_Condition (r : Fields) (p : Node × List Node) :
    (fieldsStep r p).Condition = (candFor "কন্ডিশন:" p).or r.Condition := by
  unfold fieldsStep candFor
  by_cases hd : p.1.isTag "div"
  · simp only [hd, if_true, true_and]
    by_cases h2 : getTextStrip p.1 = "কন্ডিশন:"
    · simp only [FIELD_MAP, List.lookup, h2, if_pos rfl]
      cases hn : nextSiblingDiv p.2 with
      | some nd => simp [h2, hn, setField]
      | none => simp [h2, hn]
    · by_cases h3 : getTextStrip p.1 = "মডেল:"
      · simp only [FIELD_MAP, List.lookup, h2, h3]
        cases hn : nextSiblingDiv p.2 with
        | some nd => simp [h2, h3, hn, setField]
        | none => simp [h2, h3, hn]
      · by_cases h4 : getTextStrip p.1 = "ব্র্যান্ড:"
        · simp only [FIELD_MAP, List.lookup, h2, h3, h4]
          cases hn : nextSiblingDiv p.2 with
          | some nd => simp [h2, h3, h4, hn, setField]
          | none => simp [h2, h3, h4, hn]
        · have e2 : (getTextStrip p.1 == "কন্ডিশন:") = false :=
            beq_eq_false_iff_ne.mpr h2
          have e3 : (getTextStrip p.1 == "মডেল:") = false :=
            beq_eq_false_iff_ne.mpr h3
          have e4 : (getTextStrip p.1 == "ব্র্যান্ড:") = false :=
            beq_eq_false_iff_ne.mpr h4
          simp [FIELD_MAP, List.lookup, e2, e3, e4, h2, h3, h4]
  · simp [hd]

theorem fieldsStep_Model (r : Fields) (p : Node × List Node) :
    (fieldsStep r p).Model = (candFor "মডেল:" p).or r.Model := by
  unfold fieldsStep candFor
  by_cases hd : p.1.isTag "div"
  · simp only [hd, if_true, true_and]
    by_cases h2 : getTextStrip p.1 = "কন্ডিশন:"
    · have h3 : getTextStrip p.1 ≠ "মডেল:" := by rw [h2]; decide
      simp only [FIELD_MAP, List.lookup, h2, if_pos rfl]
      cases hn : nextSiblingDiv p.2 with
      | some nd => simp [h3, hn, setField]
      | none => simp [h3, hn]
    · by_cases h3 : getTextStrip p.1 = "মডেল:"
      · simp only [FIELD_MAP, List.lookup, h2, h3]
        cases hn : nextSiblingDiv p.2 with
        | some nd => simp [h2, h3, hn, setField]
        | none => simp [h2, h3, hn]
      · by_cases h4 : getTextStrip p.1 = "ব্র্যান্ড:"
        · simp only [FIELD_MAP, List.lookup, h2, h3, h4]
          cases hn : nextSiblingDiv p.2 with
          | some nd => simp [h3, hn, setField]
          | none => simp [h3, hn]
        · have e2 : (getTextStrip p.1 == "কন্ডিশন:") = false :=
            beq_eq_false_iff_ne.mpr h2
          have e3 : (getTextStrip p.1 == "মডেল:") = false :=
            beq_eq_false_iff_ne.mpr h3
          have e4 : (getTextStrip p.1 == "ব্র্যান্ড:") = false :=
            beq_eq_false_iff_ne.mpr h4
          simp [FIELD_MAP, List.lookup, e2, e3, e4, h2, h3, h4]
  · simp [hd]

theorem fieldsStep_Brand (r : Fields) (p : Node × List Node) :
    (fieldsStep r p).Brand = (candFor "ব্র্যান্ড:" p).or r.Brand := by
  unfold fieldsStep candFor
  by_cases hd : p.1.isTag "div"
  · simp only [hd, if_true, true_and]
    by_cases h2 : getTextStrip p.1 = "কন্ডিশন:"
    · have h4 : getTextStrip p.1 ≠ "ব্র্যান্ড:" := by rw [h2]; decide
      simp only [FIELD_MAP, List.lookup, h2, if_pos rfl]
      cases hn : nextSiblingDiv p.2 with
      | some nd => simp [h4, hn, setField]
      | none => simp [h4, hn]
    · by_cases h3 : getTextStrip p.1 = "মডেল:"
      · have h4 : getTextStrip p.1 ≠ "ব্র্যান্ড:" := by rw [h3]; decide
        simp only [FIELD_MAP, List.lookup, h2, h3]
        cases hn : nextSiblingDiv p.2 with
        | some nd => simp [h4, hn, setField]
        | none => simp [h4, hn]
      · by_cases h4 : getTextStrip p.1 = "ব্র্যান্ড:"
        · simp only [FIELD_MAP, List.lookup, h2, h3, h4]
          cases hn : nextSiblingDiv p.2 with
          | some nd => simp [h2, h3, h4, hn, setField]
          | none => simp [h2, h3, h4, hn]
        · have e2 : (getTextStrip p.1 == "কন্ডিশন:") = false :=
            beq_eq_false_iff_ne.mpr h2
          have e3 : (getTextStrip p.1 == "মডেল:") = false :=
            beq_eq_false_iff_ne.mpr h3
          have e4 : (getTextStrip p.1 == "ব্র্যান্ড:") = false :=
            beq_eq_false_iff_ne.mpr h4
          simp [FIELD_MAP, List.lookup, e2, e3, e4, h2, h3, h4]
  · simp [hd]

/-- The fold of the `extract_fields` loop, projected through any field that
the loop body updates by last-write-wins. -/
theorem foldl_fieldsStep_proj (sel : Fields → Option String) (label : String)
    (hstep : ∀ r p, sel (fieldsStep r p) = (candFor label p).or (sel r)) :
    ∀ (l : List (Node × List Node)) (init : Fields),
      sel (l.foldl fieldsStep init) = (fieldCands label l).getLast?.or (sel init) := by
  intro l
  induction l with
  | nil => intro init; simp [fieldCands]
  | cons p l ih =>
    intro init
    rw [List.foldl_cons, ih, hstep]
    show _ = (fieldCands label (p :: l)).getLast?.or (sel init)
    unfold fieldCands
    rw [List.filterMap_cons]
    cases hc : candFor label p with
    | none => simp [fieldCands]
    | some v =>
      rw [getLast?_cons_or]
      cases hl : (List.filterMap (candFor label) l).getLast? with
      | none => simp [fieldCands, hl]
      | some w => simp [fieldCands, hl]

/-- Claim C10: `extract_fields` is total and yields exactly the three keys
`Condition`, `Model`, `Brand` (the `Fields` record), each optional; the value
kept for a label is the stripped text of the following sibling `div` of the
LAST `div` whose exact stripped text equals that label and which has such a
sibling — a matching `div` with no following sibling `div` contributes no
candidate and thus leaves the previously set value. -/
theorem c10_extract_fields_last_match (doc : Html) :
    (extract_fields doc).Condition =
      (fieldCands "কন্ডিশন:" (elemsPairsList doc)).getLast? ∧
    (extract_fields doc).Model =
      (fieldCands "মডেল:" (elemsPairsList doc)).getLast? ∧
    (extract_fields doc).Brand =
      (fieldCands "ব্র্যান্ড:" (elemsPairsList doc)).getLast? := by
  unfold extract_fields
  refine ⟨?_, ?_, ?_⟩
  · rw [foldl_fieldsStep_proj (·.Condition) "কন্ডিশন:" fieldsStep_Condition]
    exact Option.or_none
  · rw [foldl_fieldsStep_proj (·.Model) "মডেল:" fieldsStep_Model]
    exact Option.or_none
  · rw [foldl_fieldsStep_proj (·.Brand) "ব্র্যান্ড:" fieldsStep_Brand]
    exact Option.or_none

end Bikroy
